import Mathlib

/-!
Shallow embedding of the NDR XML validator (src/app.py): the extractor
`extract_services_with_dates` and the rule battery `validate_ndr`, together
with an exception-explicit rendition used to settle the error-handling
claims.  Python `datetime.strptime(s, "%Y-%m-%d")` and `int(s)` are modelled
faithfully, including their accepted surface syntax.
-/

namespace NDR

/-! ### Character-list primitives (Python string surface syntax) -/

def digitVal (c : Char) : Nat := c.toNat - 48

def allDigits (cs : List Char) : Bool := cs.all Char.isDigit

def digitsToNat (cs : List Char) : Nat :=
  cs.foldl (fun a c => a * 10 + digitVal c) 0

/-- Split a character list on `'-'` (model of splitting `YYYY-MM-DD`). -/
def splitDashAux (cur : List Char) : List Char → List (List Char)
  | [] => [cur.reverse]
  | c :: rest =>
    if c = '-' then cur.reverse :: splitDashAux [] rest
    else splitDashAux (c :: cur) rest

def splitDash (cs : List Char) : List (List Char) := splitDashAux [] cs

/-- Gregorian leap-year test, as in Python's `calendar`/`datetime`. -/
def isLeap (y : Nat) : Bool := y % 4 = 0 && (y % 100 ≠ 0 || y % 400 = 0)

def daysInMonth (y m : Nat) : Nat :=
  if m = 2 then (if isLeap y then 29 else 28)
  else if m = 4 || m = 6 || m = 9 || m = 11 then 30
  else 31

structure PyDate where
  year : Nat
  month : Nat
  day : Nat
deriving DecidableEq, Repr

/-- Model of `datetime.strptime(s, "%Y-%m-%d")`: exactly three dash-separated
digit groups, the year exactly four digits with value ≥ 1, month and day one
or two digits, and the triple a real calendar date.  Returns `none` exactly
when Python raises. -/
def strptimeYmd (s : String) : Option PyDate :=
  match splitDash s.data with
  | [yc, mc, dc] =>
    if allDigits yc && yc.length = 4 &&
       allDigits mc && (mc.length = 1 || mc.length = 2) &&
       allDigits dc && (dc.length = 1 || dc.length = 2) then
      let y := digitsToNat yc
      let m := digitsToNat mc
      let d := digitsToNat dc
      if 1 ≤ y && 1 ≤ m && m ≤ 12 && 1 ≤ d && d ≤ daysInMonth y m then
        some ⟨y, m, d⟩
      else none
    else none
  | _ => none

/-- `datetime` comparison restricted to dates (times are all zero in this
program): lexicographic on (year, month, day). -/
def dateLt (a b : PyDate) : Bool :=
  if a.year ≠ b.year then decide (a.year < b.year)
  else if a.month ≠ b.month then decide (a.month < b.month)
  else decide (a.day < b.day)

/-- Python tuple comparison `(m1, d1) < (m2, d2)`. -/
def pairLt (a b : Nat × Nat) : Bool :=
  decide (a.1 < b.1) || (decide (a.1 = b.1) && decide (a.2 < b.2))

/-- Digits of a Python integer literal after the optional sign: nonempty,
single underscores allowed strictly between digits. -/
def pyDigitsAux (acc : Nat) : List Char → Option Nat
  | [] => some acc
  | c :: rest =>
    if c.isDigit then pyDigitsAux (acc * 10 + digitVal c) rest
    else if c = '_' then
      match rest with
      | d :: rest' => if d.isDigit then pyDigitsAux (acc * 10 + digitVal d) rest' else none
      | [] => none
    else none

def pyDigits : List Char → Option Nat
  | [] => none
  | c :: rest => if c.isDigit then pyDigitsAux (digitVal c) rest else none

def trimWs (cs : List Char) : List Char :=
  ((cs.dropWhile Char.isWhitespace).reverse.dropWhile Char.isWhitespace).reverse

/-- Model of Python `int(s)` on a string: strip whitespace, optional sign,
then digits (with underscore grouping).  `none` exactly when Python raises
`ValueError`. -/
def pyIntStr (s : String) : Option Int :=
  match trimWs s.data with
  | '+' :: rest => (pyDigits rest).map Int.ofNat
  | '-' :: rest => (pyDigits rest).map (fun n => -(n : Int))
  | rest => (pyDigits rest).map Int.ofNat

/-- Zero-padded decimal rendering, as `date.__str__` uses (`%04d-%02d-%02d`). -/
def pad2 (n : Nat) : String := if n < 10 then "0" ++ toString n else toString n

def pad4 (n : Nat) : String :=
  if n < 10 then "000" ++ toString n
  else if n < 100 then "00" ++ toString n
  else if n < 1000 then "0" ++ toString n
  else toString n

/-- Model of `datetime.date().__str__()`: ISO `YYYY-MM-DD`. -/
def formatDate (d : PyDate) : String :=
  pad4 d.year ++ "-" ++ pad2 d.month ++ "-" ++ pad2 d.day

/-- ASCII uppercase conversion (model of `str.upper()` on the data domain). -/
def upChars (cs : List Char) : List Char := cs.map Char.toUpper

def isPreOf : List Char → List Char → Bool
  | [], _ => true
  | _ :: _, [] => false
  | a :: as, b :: bs => a = b && isPreOf as bs

/-- `needle` occurs as a contiguous sublist of the second argument
(model of Python's `in` on strings). -/
def isSubOf (needle : List Char) : List Char → Bool
  | [] => isPreOf needle []
  | b :: bs => isPreOf needle (b :: bs) || isSubOf needle bs

/-- Model of `'INH' in code.upper()`. -/
def containsINH (code : String) : Bool :=
  isSubOf "INH".data (upChars code.data)

/-- Python truthiness of an optional string: `None` and `""` are falsy. -/
def truthy : Option String → Bool
  | none => false
  | some s => !(s == "")

/-! ### XML document model (ElementTree fragment used by the program)

An element has a tag, the text before its first child (`Element.text`,
`none` when ElementTree would report `None`), and a list of child
elements. -/

mutual
inductive Xml where
  | elem (tag : String) (text : Option String) (children : XmlList)

inductive XmlList where
  | nil
  | cons (x : Xml) (xs : XmlList)
end

def Xml.tag : Xml → String
  | .elem t _ _ => t

def Xml.text : Xml → Option String
  | .elem _ tx _ => tx

def Xml.children : Xml → XmlList
  | .elem _ _ cs => cs

def XmlList.toList : XmlList → List Xml
  | .nil => []
  | .cons x xs => x :: xs.toList

/-- Build a child list from a plain list (used to write concrete documents). -/
def xl : List Xml → XmlList
  | [] => .nil
  | x :: xs => .cons x (xl xs)

mutual
/-- All descendants of one element carrying the given tag, in document
order. -/
def findallIn (t : String) : Xml → List Xml
  | .elem _ _ cs => findallL t cs

/-- All elements of the child list or their strict descendants carrying the
given tag, in document order: the model of `findall('.//T')` applied from an
element with these children. -/
def findallL (t : String) : XmlList → List Xml
  | .nil => []
  | .cons x xs => (if x.tag = t then [x] else []) ++ findallIn t x ++ findallL t xs
end

/-- Model of `root.find('.//T')`: first matching strict descendant in
document order. -/
def findDesc (t : String) (root : Xml) : Option Xml :=
  (findallL t root.children).head?

/-- Model of `e.findtext('T')` for a single-step path: the first direct child
tagged `T`; an element found with no text yields `""`, no element yields
`none`. -/
def findtext1 (t : String) (x : Xml) : Option String :=
  ((x.children.toList.filter (fun c => c.tag = t)).head?).map (fun c => c.text.getD "")

/-- Model of `e.findtext('T1/T2')`: first `T2` child of any `T1` child, in
document order. -/
def findtext2 (t1 t2 : String) (x : Xml) : Option String :=
  (((x.children.toList.filter (fun c => c.tag = t1)).flatMap
      (fun c => c.children.toList.filter (fun g => g.tag = t2))).head?).map
    (fun c => c.text.getD "")

/-! ### Normalized record (the `services` dictionary) -/

structure Encounter where
  arv : Option String
  tb : Option String
deriving DecidableEq, Repr

structure Regimen where
  code : String
  rtype : Option String
  mmd : Option String
  dsd : Option String
  duration : Option String
deriving DecidableEq, Repr

structure LabReport where
  test_id : Option String
  collected : Option String
deriving DecidableEq, Repr

structure PatientInfo where
  dob : Option String
  age : Option String
  report_date : Option String
deriving DecidableEq, Repr

structure Services where
  encounters : List (String × Encounter)
  regimens : List (String × Regimen)
  labs : List (String × LabReport)
  patient : PatientInfo
  art_start : Option PyDate
  ipt_codes : List String
deriving DecidableEq, Repr

/-- Python-dict assignment `m[k] = v`: update in place when the key exists,
append otherwise (insertion order preserved). -/
def upsert (k : String) (v : α) : List (String × α) → List (String × α)
  | [] => [(k, v)]
  | (k', v') :: rest => if k' = k then (k, v) :: rest else (k', v') :: upsert k v rest

/-- Python-dict lookup `m.get(k)`. -/
def lookup (m : List (String × α)) (k : String) : Option α :=
  ((m.find? (fun p => p.1 = k))).map (fun p => p.2)

/-- Python-set insertion. -/
def setAdd (d : String) (l : List String) : List String :=
  if l.contains d then l else l ++ [d]

/-- Build a date-keyed dictionary from the node list, one upsert per node in
document order. -/
def buildMap (key : Xml → String) (f : Xml → α) (nodes : List Xml) : List (String × α) :=
  nodes.foldl (fun m n => upsert (key n) (f n) m) []

/-! ### Extractor (`extract_services_with_dates`, src/app.py lines 46-101) -/

/-- `findtext('VisitDate') or 'Unknown'`. -/
def visitKey (n : Xml) : String :=
  match findtext1 "VisitDate" n with
  | none => "Unknown"
  | some s => if s = "" then "Unknown" else s

/-- The regimen entry built from one `Regimen` node. -/
def buildRegimen (n : Xml) : Regimen :=
  { code := (findtext2 "PrescribedRegimen" "Code" n).getD ""
    rtype := findtext1 "PrescribedRegimenTypeCode" n
    mmd := findtext1 "MultiMonthDispensing" n
    dsd := findtext1 "DifferentiatedServiceDelivery" n
    duration := findtext1 "PrescribedRegimenDuration" n }

def buildEncounter (n : Xml) : Encounter :=
  { arv := findtext2 "ARVDrugRegimen" "Code" n, tb := findtext1 "TBStatus" n }

def buildLab (n : Xml) : LabReport :=
  { test_id := findtext1 "LaboratoryTestIdentifier" n
    collected := findtext1 "CollectionDate" n }

/-- The `ARTStartDate` text, when an `HIVQuestions` node is present. -/
def artText (root : Xml) : Option String :=
  (findDesc "HIVQuestions" root).bind (findtext1 "ARTStartDate")

/-- `if art_date: try strptime except pass`. -/
def artStartOf (root : Xml) : Option PyDate :=
  match artText root with
  | none => none
  | some a => if a = "" then none else strptimeYmd a

def regimenNodes (root : Xml) : List Xml := findallL "Regimen" root.children

def encounterNodes (root : Xml) : List Xml := findallL "HIVEncounter" root.children

def labNodes (root : Xml) : List Xml := findallL "LaboratoryReport" root.children

def iptCodesOf (root : Xml) : List String :=
  (regimenNodes root).foldl
    (fun acc n => if containsINH ((findtext2 "PrescribedRegimen" "Code" n).getD "")
                  then setAdd (visitKey n) acc else acc) []

def patientOf (root : Xml) : PatientInfo :=
  { dob := (findDesc "PatientDemographics" root).bind (findtext1 "PatientDateOfBirth")
    age := (findDesc "CommonQuestions" root).bind (findtext1 "PatientAge")
    report_date := (findDesc "CommonQuestions" root).bind (findtext1 "DateOfLastReport") }

/-- Embedding of `extract_services_with_dates` on an already-parsed tree. -/
def extract_services_with_dates (root : Xml) : Services :=
  { encounters := buildMap visitKey buildEncounter (encounterNodes root)
    regimens := buildMap visitKey buildRegimen (regimenNodes root)
    labs := buildMap visitKey buildLab (labNodes root)
    patient := patientOf root
    art_start := artStartOf root
    ipt_codes := iptCodesOf root }

/-! ### Validator (`validate_ndr`, src/app.py lines 103-158) -/

/-- Rule 1 per-encounter emission: missing ARV, then sentinel visit date. -/
def emitRule1 (p : String × Encounter) : List String :=
  (if !(truthy p.2.arv) then ["❌ Missing ARV regimen in encounter on " ++ p.1 ++ "."] else []) ++
  (if p.1 = "Unknown" then ["❌ Missing VisitDate in an encounter."] else [])

def rule1 (s : Services) : List String :=
  s.encounters.foldl (fun acc p => acc ++ emitRule1 p) []

def artMsg (d : String) (a : PyDate) : String :=
  "❌ Encounter on " ++ d ++ " before ARTStartDate " ++ formatDate a ++ "."

/-- Rule 2 per-encounter emission under a parsed ART start date; the
`try/except: pass` is the `none` branch. -/
def emitRule2 (a : PyDate) (p : String × Encounter) : List String :=
  match strptimeYmd p.1 with
  | some v => if dateLt v a then [artMsg p.1 a] else []
  | none => []

def rule2 (s : Services) : List String :=
  match s.art_start with
  | none => []
  | some a => s.encounters.foldl (fun acc p => acc ++ emitRule2 a p) []

def tbMsg (d : String) : String :=
  "❌ TB positive on " ++ d ++ ", but no IPT regimen found."

/-- `[d for d, e in encounters.items() if e.get('tb') == '1']`. -/
def tbDates (s : Services) : List String :=
  s.encounters.filterMap (fun p => if p.2.tb = some "1" then some p.1 else none)

def rule3 (s : Services) : List String :=
  if tbDates s ≠ [] ∧ s.ipt_codes = [] then
    (tbDates s).foldl (fun acc d => acc ++ [tbMsg d]) []
  else []

def labMsg (d : String) : String :=
  "❌ Lab report on " ++ d ++ " missing test ID or collection date."

def emitRule4 (p : String × LabReport) : List String :=
  if !(truthy p.2.test_id) || !(truthy p.2.collected) then [labMsg p.1] else []

def rule4 (s : Services) : List String :=
  s.labs.foldl (fun acc p => acc ++ emitRule4 p) []

def mmdMsg (d : String) : String :=
  "❌ Regimen on " ++ d ++ " has duration >30 but no MMD."

/-- `int(r.get('duration') or 0)`: a falsy duration becomes the integer 0;
otherwise Python `int` on the string, `none` when it raises. -/
def durationInt (r : Regimen) : Option Int :=
  match r.duration with
  | none => some 0
  | some ds => if ds = "" then some 0 else pyIntStr ds

def emitRule5 (p : String × Regimen) : List String :=
  match durationInt p.2 with
  | some dur => if dur > 30 ∧ !(truthy p.2.mmd) then [mmdMsg p.1] else []
  | none => []

def rule5 (s : Services) : List String :=
  s.regimens.foldl (fun acc p => acc ++ emitRule5 p) []

def arvMsg (d av rc : String) : String :=
  "❌ ARV mismatch on " ++ d ++ ": Encounter=" ++ av ++ ", Regimen=" ++ rc

def emitRule6 (s : Services) (p : String × Encounter) : List String :=
  match lookup s.regimens p.1 with
  | some r =>
    if r.rtype = some "ART" then
      match p.2.arv with
      | some av =>
        if av ≠ "" ∧ r.code ≠ "" ∧ av ≠ r.code then [arvMsg p.1 av r.code] else []
      | none => []
    else []
  | none => []

def rule6 (s : Services) : List String :=
  s.encounters.foldl (fun acc p => acc ++ emitRule6 s p) []

def ageMsg (ageRaw : Option String) (c : Int) : String :=
  "❌ Reported age " ++ ageRaw.getD "" ++ " does not match calculated age " ++
    toString c ++ "."

def ageWarnMsg : String :=
  "⚠️ Could not validate DateOfBirth or age due to format issues."

/-- `rpt.year - dob.year - ((rpt.month, rpt.day) < (dob.month, dob.day))`. -/
def calcAge (dob rpt : PyDate) : Int :=
  (rpt.year : Int) - (dob.year : Int) -
    (if pairLt (rpt.month, rpt.day) (dob.month, dob.day) then 1 else 0)

def rule7 (p : PatientInfo) : List String :=
  match p.dob.bind strptimeYmd, p.report_date.bind strptimeYmd, p.age.bind pyIntStr with
  | some dobD, some rptD, some a =>
    if (a - calcAge dobD rptD).natAbs > 1 then [ageMsg p.age (calcAge dobD rptD)] else []
  | _, _, _ => [ageWarnMsg]

/-- Embedding of `validate_ndr`: the seven rules append into one issue list. -/
def validate_ndr (s : Services) : List String :=
  rule1 s ++ rule2 s ++ rule3 s ++ rule4 s ++ rule5 s ++ rule6 s ++ rule7 s.patient

/-! ### Exception-explicit rendition

Python exceptions become `Except.error`; each bare `try/except` of the source
becomes a `pyCatch`.  Fallible primitives throw exactly where Python raises:
`strptime` on `None` or an unparseable string, `int` likewise. -/

inductive PyErr where
  | valueError
  | typeError
  | parseError
deriving DecidableEq, Repr

def strptimeE (x : Option String) : Except PyErr PyDate :=
  match x with
  | none => .error .typeError
  | some s => match strptimeYmd s with
    | some d => .ok d
    | none => .error .valueError

def pyIntE (x : Option String) : Except PyErr Int :=
  match x with
  | none => .error .typeError
  | some s => match pyIntStr s with
    | some n => .ok n
    | none => .error .valueError

/-- A bare `try: ... except: <fallback>` block. -/
def pyCatch (x : Except PyErr α) (fallback : α) : Except PyErr α :=
  match x with
  | .ok a => .ok a
  | .error _ => .ok fallback

def rule2E (s : Services) : Except PyErr (List String) :=
  match s.art_start with
  | none => pure []
  | some a =>
    s.encounters.foldlM (fun acc p =>
      pyCatch (do
        let v ← strptimeE (some p.1)
        pure (if dateLt v a then acc ++ [artMsg p.1 a] else acc)) acc) []

def durationE (r : Regimen) : Except PyErr Int :=
  match r.duration with
  | none => .ok 0
  | some ds => if ds = "" then .ok 0 else pyIntE (some ds)

def rule5E (s : Services) : Except PyErr (List String) :=
  s.regimens.foldlM (fun acc p =>
    pyCatch (do
      let dur ← durationE p.2
      pure (if dur > 30 ∧ !(truthy p.2.mmd) then acc ++ [mmdMsg p.1] else acc)) acc) []

def rule7E (p : PatientInfo) : Except PyErr (List String) :=
  pyCatch (do
    let dobD ← strptimeE p.dob
    let rptD ← strptimeE p.report_date
    let a ← pyIntE p.age
    pure (if (a - calcAge dobD rptD).natAbs > 1 then [ageMsg p.age (calcAge dobD rptD)]
          else [])) [ageWarnMsg]

def validate_ndrE (s : Services) : Except PyErr (List String) := do
  let i2 ← rule2E s
  let i5 ← rule5E s
  let i7 ← rule7E s.patient
  pure (rule1 s ++ i2 ++ rule3 s ++ rule4 s ++ i5 ++ rule6 s ++ i7)

def artStartE (root : Xml) : Except PyErr (Option PyDate) :=
  match artText root with
  | none => pure none
  | some a =>
    if a = "" then pure none
    else pyCatch (do
      let d ← strptimeE (some a)
      pure (some d)) none

def extractE (root : Xml) : Except PyErr Services := do
  let art ← artStartE root
  pure { encounters := buildMap visitKey buildEncounter (encounterNodes root)
         regimens := buildMap visitKey buildRegimen (regimenNodes root)
         labs := buildMap visitKey buildLab (labNodes root)
         patient := patientOf root
         art_start := art
         ipt_codes := iptCodesOf root }

/-! ### Document front end -/

/-- Modelled from the spec: the third-party XML text parser (`ET.parse`) is
not part of src/; per the spec it fails with a parse failure exactly on
documents that are not well-formed, and a well-formed document yields its
element tree. -/
inductive Document where
  | wellFormed (root : Xml)
  | malformed

/-- Modelled from the spec: `ET.parse` raises `ParseError` iff the document
is not well-formed. -/
def ET_parse (d : Document) : Except PyErr Xml :=
  match d with
  | .wellFormed r => .ok r
  | .malformed => .error .parseError

/-- The composed core: extraction followed by validation. -/
def pipeline (d : Document) : Except PyErr (List String) := do
  let root ← ET_parse d
  let s ← extractE root
  validate_ndrE s

/-- Two sequential invocations of the pipeline on the same input. -/
def runTwice (d : Document) : Except PyErr (List String) × Except PyErr (List String) :=
  (pipeline d, pipeline d)

/-- Python-pipeline stage `extract_services_with_dates(filepath)` including
the `ET.parse` call. -/
def extractDoc (d : Document) : Except PyErr Services := do
  let root ← ET_parse d
  extractE root

/-! ### Spec-side formulations (worded from the claims, to compare with the
code-side rules) -/

/-- "The entry built from the last node in traversal order whose key is `d`". -/
def lastWins {α : Type} (key : Xml → String) (f : Xml → α) (nodes : List Xml)
    (d : String) : Option α :=
  nodes.foldl (fun acc n => if key n = d then some (f n) else acc) none

/-- Spec side of the ART-start ordering rule: when an ART-start date was
parsed, one issue per encounter key that parses strictly as `YYYY-MM-DD` and
is strictly before it, in key order; unparseable keys and keys on or after
the ART start contribute nothing. -/
def artRuleSpec (s : Services) : List String :=
  match s.art_start with
  | none => []
  | some a =>
    (s.encounters.map Prod.fst).filterMap (fun d =>
      match strptimeYmd d with
      | some v => if dateLt v a then some (artMsg d a) else none
      | none => none)

/-- Spec side of the TB/IPT cross-check: one issue per TB-positive date when
the extracted IPT-date set is empty, nothing otherwise (document-wide
suppression). -/
def tbRuleSpec (s : Services) : List String :=
  if s.ipt_codes = [] then (tbDates s).map tbMsg else []

/-- Spec side of the claim's duration parse: an absent duration is treated
as zero, a present one is parsed as a Python integer (`none` when
unparseable). -/
def durationSpec (r : Regimen) : Option Int :=
  match r.duration with
  | none => some 0
  | some ds => pyIntStr ds

/-- Spec side of the MMD trigger: duration parses as an integer strictly
greater than 30 and the MMD flag is absent or empty. -/
def mmdTriggerSpec (r : Regimen) : Prop :=
  (∃ n : Int, durationSpec r = some n ∧ 30 < n) ∧ (r.mmd = none ∨ r.mmd = some "")

/-- Spec side of the age computation: report year minus birth year, minus
one more if the (month, day) of the report date precedes that of the birth
date. -/
def calcAgeSpec (dob rpt : PyDate) : Int :=
  (rpt.year : Int) - (dob.year : Int) -
    (if rpt.month < dob.month ∨ (rpt.month = dob.month ∧ rpt.day < dob.day) then 1 else 0)

/-! ### Concrete documents used to instantiate the results -/

/-- A regimen node with the given visit date, code, duration and MMD flag. -/
def regNodeW (d code dur mmd : Option String) : Xml :=
  .elem "Regimen" none (xl
    ((match d with | some ds => [.elem "VisitDate" (some ds) (xl [])] | none => []) ++
     [.elem "PrescribedRegimen" none (xl [.elem "Code" code (xl [])])] ++
     (match dur with
      | some x => [.elem "PrescribedRegimenDuration" (some x) (xl [])] | none => []) ++
     (match mmd with
      | some x => [.elem "MultiMonthDispensing" (some x) (xl [])] | none => [])))

/-- Two same-date regimens: an INH-coded one followed by a non-INH one. -/
def docIpt : Xml :=
  .elem "Container" none (xl
    [regNodeW (some "2024-05-01") (some "INH 300mg") none none,
     regNodeW (some "2024-05-01") (some "TDF-3TC-DTG") none none])

/-- An encounter with an empty ARV code and a lab report with an empty test
identifier. -/
def docEmptyFields : Xml :=
  .elem "Container" none (xl
    [.elem "HIVEncounter" none (xl
       [.elem "VisitDate" (some "2024-01-10") (xl []),
        .elem "ARVDrugRegimen" none (xl [.elem "Code" (some "") (xl [])])]),
     .elem "LaboratoryReport" none (xl
       [.elem "VisitDate" (some "2024-01-11") (xl []),
        .elem "LaboratoryTestIdentifier" (some "") (xl []),
        .elem "CollectionDate" (some "2024-01-11") (xl [])])])

/-- A document whose ART start date is present but malformed. -/
def docBadArt : Xml :=
  .elem "Container" none (xl
    [.elem "HIVQuestions" none (xl
      [.elem "ARTStartDate" (some "01/02/2024") (xl [])])])

/-- Patient info with a well-formed DOB and report date and an over-reported
age. -/
def patW : PatientInfo :=
  { dob := some "2000-06-15", age := some "25", report_date := some "2024-06-10" }

/-- A record with one encounter before a parsed ART start date. -/
def servW : Services :=
  { encounters := [("2024-01-15", { arv := some "X", tb := none })]
    regimens := [("2024-01-15", { code := "X", rtype := some "ART", mmd := none,
                                  dsd := none, duration := some "90" })]
    labs := []
    patient := { dob := none, age := none, report_date := none }
    art_start := some ⟨2024, 2, 1⟩
    ipt_codes := [] }

/-! ### List and fold infrastructure -/

theorem foldl_append_emit {α : Type} (g : α → List String) :
    ∀ (l : List α) (acc : List String),
      l.foldl (fun a x => a ++ g x) acc = acc ++ l.flatMap g := by
  intro l
  induction l with
  | nil => intro acc; simp
  | cons x xs ih => intro acc; simp [ih, List.append_assoc]

theorem rule1_eq (s : Services) : rule1 s = s.encounters.flatMap emitRule1 := by
  simpa using foldl_append_emit emitRule1 s.encounters []

theorem rule2_eq (s : Services) (a : PyDate) (h : s.art_start = some a) :
    rule2 s = s.encounters.flatMap (emitRule2 a) := by
  unfold rule2
  rw [h]
  simpa using foldl_append_emit (emitRule2 a) s.encounters []

theorem rule4_eq (s : Services) : rule4 s = s.labs.flatMap emitRule4 := by
  simpa using foldl_append_emit emitRule4 s.labs []

theorem rule5_eq (s : Services) : rule5 s = s.regimens.flatMap emitRule5 := by
  simpa using foldl_append_emit emitRule5 s.regimens []

theorem rule6_eq (s : Services) : rule6 s = s.encounters.flatMap (emitRule6 s) := by
  simpa using foldl_append_emit (emitRule6 s) s.encounters []

theorem flatMap_single {α : Type} (g : α → String) (l : List α) :
    l.flatMap (fun x => [g x]) = l.map g := by
  induction l with
  | nil => rfl
  | cons x xs ih => simp [ih]

theorem rule3_eq (s : Services) :
    rule3 s = if tbDates s ≠ [] ∧ s.ipt_codes = [] then (tbDates s).map tbMsg else [] := by
  unfold rule3
  split
  · rw [show ((tbDates s).foldl (fun acc d => acc ++ [tbMsg d]) []) =
        (tbDates s).flatMap (fun d => [tbMsg d]) by
          simpa using foldl_append_emit (fun d => [tbMsg d]) (tbDates s) []]
    exact flatMap_single tbMsg (tbDates s)
  · rfl

/-! ### Dictionary (assoc list) lemmas -/

theorem lookup_upsert {α : Type} (k : String) (v : α) (m : List (String × α)) (k' : String) :
    lookup (upsert k v m) k' = if k' = k then some v else lookup m k' := by
  induction m with
  | nil =>
    by_cases h : k' = k
    · simp [upsert, lookup, List.find?, h]
    · have h' : ¬ k = k' := fun hh => h hh.symm
      simp [upsert, lookup, List.find?, h, h']
  | cons p rest ih =>
    by_cases hpk : p.1 = k
    · have hu : upsert k v (p :: rest) = (k, v) :: rest := by simp [upsert, hpk]
      rw [hu]
      by_cases h : k' = k
      · simp [lookup, List.find?_cons, h]
      · have h' : ¬ k = k' := fun hh => h hh.symm
        have hp' : ¬ p.1 = k' := by rw [hpk]; exact h'
        simp [lookup, List.find?_cons, h, h', hp']
    · have hu : upsert k v (p :: rest) = p :: upsert k v rest := by simp [upsert, hpk]
      rw [hu]
      by_cases hpk' : p.1 = k'
      · have hk'k : ¬ k' = k := fun hh => hpk (hpk'.trans hh)
        simp [lookup, List.find?_cons, hpk', hk'k]
      · have e1 : lookup (p :: upsert k v rest) k' = lookup (upsert k v rest) k' := by
          simp [lookup, List.find?_cons, hpk']
        have e2 : lookup (p :: rest) k' = lookup rest k' := by
          simp [lookup, List.find?_cons, hpk']
        rw [e1, ih, e2]

theorem map_fst_upsert {α : Type} (k : String) (v : α) (m : List (String × α)) :
    (upsert k v m).map Prod.fst =
      if k ∈ m.map Prod.fst then m.map Prod.fst else m.map Prod.fst ++ [k] := by
  induction m with
  | nil => simp [upsert]
  | cons p rest ih =>
    by_cases hpk : p.1 = k
    · simp [upsert, hpk]
    · have hne : ¬ k = p.1 := fun h => hpk h.symm
      have hu : upsert k v (p :: rest) = p :: upsert k v rest := by simp [upsert, hpk]
      rw [hu]
      simp only [List.map_cons, ih, List.mem_cons]
      by_cases hk : k ∈ rest.map Prod.fst
      · simp [hk, hne]
      · simp [hk, hne]

theorem nodup_upsert {α : Type} (k : String) (v : α) (m : List (String × α))
    (h : (m.map Prod.fst).Nodup) : ((upsert k v m).map Prod.fst).Nodup := by
  rw [map_fst_upsert]
  split
  · exact h
  · next hk => simp [List.nodup_append, h, hk]

theorem nodup_buildMap_aux {α : Type} (key : Xml → String) (f : Xml → α) :
    ∀ (nodes : List Xml) (m : List (String × α)),
      (m.map Prod.fst).Nodup →
      (((nodes.foldl (fun m n => upsert (key n) (f n) m) m)).map Prod.fst).Nodup := by
  intro nodes
  induction nodes with
  | nil => intro m h; simpa using h
  | cons n ns ih =>
    intro m h
    exact ih (upsert (key n) (f n) m) (nodup_upsert _ _ _ h)

theorem nodup_buildMap {α : Type} (key : Xml → String) (f : Xml → α) (nodes : List Xml) :
    ((buildMap key f nodes).map Prod.fst).Nodup :=
  nodup_buildMap_aux key f nodes [] (by simp)

theorem lookup_buildMap_aux {α : Type} (key : Xml → String) (f : Xml → α) :
    ∀ (nodes : List Xml) (m : List (String × α)) (d : String),
      lookup (nodes.foldl (fun m n => upsert (key n) (f n) m) m) d =
        nodes.foldl (fun acc n => if key n = d then some (f n) else acc) (lookup m d) := by
  intro nodes
  induction nodes with
  | nil => intro m d; rfl
  | cons n ns ih =>
    intro m d
    rw [List.foldl_cons, List.foldl_cons, ih]
    congr 1
    rw [lookup_upsert]
    by_cases h : key n = d
    · simp [h]
    · have : ¬ d = key n := fun hh => h hh.symm
      simp [h, this]

theorem lookup_buildMap {α : Type} (key : Xml → String) (f : Xml → α) (nodes : List Xml)
    (d : String) : lookup (buildMap key f nodes) d = lastWins key f nodes d := by
  unfold buildMap lastWins
  rw [lookup_buildMap_aux]
  rfl

/-! ### The exception-explicit rendition never escapes its catches -/

theorem foldlM_eq_ok {α β : Type} (f : β → α → Except PyErr β) (g : β → α → β)
    (h : ∀ b a, f b a = .ok (g b a)) :
    ∀ (l : List α) (b : β), l.foldlM f b = .ok (l.foldl g b) := by
  intro l
  induction l with
  | nil => intro b; rfl
  | cons x xs ih =>
    intro b
    have : (x :: xs).foldlM f b = f b x >>= fun b' => xs.foldlM f b' := rfl
    rw [this, h b x]
    show xs.foldlM f (g b x) = _
    rw [ih (g b x), List.foldl_cons]

theorem rule2E_eq (s : Services) : rule2E s = .ok (rule2 s) := by
  unfold rule2E rule2
  cases s.art_start with
  | none => rfl
  | some a =>
    apply foldlM_eq_ok
    intro acc p
    unfold emitRule2
    cases hm : strptimeYmd p.1 with
    | none => simp [pyCatch, strptimeE, hm, Bind.bind, Except.bind]
    | some v =>
      by_cases hlt : dateLt v a = true
      · simp [pyCatch, strptimeE, hm, hlt, Bind.bind, Except.bind, Pure.pure, Except.pure]
      · simp [pyCatch, strptimeE, hm, hlt, Bind.bind, Except.bind, Pure.pure, Except.pure]

theorem durationE_eq (r : Regimen) :
    durationE r = match durationInt r with
      | some n => .ok n
      | none => .error .valueError := by
  unfold durationE durationInt
  cases hds : r.duration with
  | none => rfl
  | some ds =>
    by_cases he : ds = ""
    · simp [he]
    · simp only [if_neg he, pyIntE]

theorem rule5E_eq (s : Services) : rule5E s = .ok (rule5 s) := by
  unfold rule5E rule5
  apply foldlM_eq_ok
  intro acc p
  unfold emitRule5
  rw [durationE_eq]
  cases hd : durationInt p.2 with
  | none => simp [pyCatch, Bind.bind, Except.bind]
  | some dur =>
    simp only [pyCatch, Bind.bind, Except.bind, Pure.pure, Except.pure]
    congr 1
    split <;> simp

theorem rule7E_eq (p : PatientInfo) : rule7E p = .ok (rule7 p) := by
  unfold rule7E rule7
  cases hd : p.dob with
  | none => simp [pyCatch, strptimeE, hd, Bind.bind, Except.bind, Option.bind]
  | some dobS =>
    cases hds : strptimeYmd dobS with
    | none => simp [pyCatch, strptimeE, hd, hds, Bind.bind, Except.bind, Option.bind]
    | some dobD =>
      cases hr : p.report_date with
      | none => simp [pyCatch, strptimeE, hd, hds, hr, Bind.bind, Except.bind, Option.bind]
      | some rptS =>
        cases hrs : strptimeYmd rptS with
        | none => simp [pyCatch, strptimeE, hd, hds, hr, hrs, Bind.bind, Except.bind, Option.bind]
        | some rptD =>
          cases ha : p.age with
          | none =>
            simp [pyCatch, strptimeE, pyIntE, hd, hds, hr, hrs, ha,
              Bind.bind, Except.bind, Option.bind]
          | some ageS =>
            cases has : pyIntStr ageS with
            | none =>
              simp [pyCatch, strptimeE, pyIntE, hd, hds, hr, hrs, ha, has,
                Bind.bind, Except.bind, Option.bind]
            | some a =>
              simp [pyCatch, strptimeE, pyIntE, hd, hds, hr, hrs, ha, has,
                Bind.bind, Except.bind, Option.bind, Pure.pure, Except.pure]

theorem validate_ndrE_eq (s : Services) : validate_ndrE s = .ok (validate_ndr s) := by
  unfold validate_ndrE validate_ndr
  rw [rule2E_eq, rule5E_eq, rule7E_eq]
  rfl

theorem artStartE_eq (root : Xml) : artStartE root = .ok (artStartOf root) := by
  unfold artStartE artStartOf
  cases ha : artText root with
  | none => rfl
  | some a =>
    by_cases he : a = ""
    · simp [he, Pure.pure, Except.pure]
    · cases hs : strptimeYmd a with
      | none => simp [he, pyCatch, strptimeE, hs, Bind.bind, Except.bind]
      | some d => simp [he, pyCatch, strptimeE, hs, Bind.bind, Except.bind, Pure.pure, Except.pure]

theorem extractE_eq (root : Xml) :
    extractE root = .ok (extract_services_with_dates root) := by
  unfold extractE extract_services_with_dates
  rw [artStartE_eq]
  rfl

theorem calcAgeSpec_eq (dob rpt : PyDate) : calcAgeSpec dob rpt = calcAge dob rpt := by
  unfold calcAgeSpec calcAge pairLt
  congr 1
  by_cases h1 : rpt.month < dob.month
  · simp [h1]
  · by_cases h2 : rpt.month = dob.month
    · by_cases h3 : rpt.day < dob.day <;> simp [h1, h2, h3]
    · simp [h1, h2]

/-! ### String message injectivity -/

theorem strAppend_inj (p t : String) {d₁ d₂ : String}
    (h : p ++ d₁ ++ t = p ++ d₂ ++ t) : d₁ = d₂ := by
  have h' : (p ++ d₁ ++ t).data = (p ++ d₂ ++ t).data := by rw [h]
  simp only [String.data_append] at h'
  exact String.ext (List.append_cancel_left (List.append_cancel_right h'))

theorem mmdMsg_inj {d₁ d₂ : String} (h : mmdMsg d₁ = mmdMsg d₂) : d₁ = d₂ :=
  strAppend_inj "❌ Regimen on " " has duration >30 but no MMD." h

theorem tbMsg_inj {d₁ d₂ : String} (h : tbMsg d₁ = tbMsg d₂) : d₁ = d₂ :=
  strAppend_inj "❌ TB positive on " ", but no IPT regimen found." h

/-! ### Per-rule characterizations -/

theorem flatMap_emitRule2 (a : PyDate) :
    ∀ l : List (String × Encounter),
      l.flatMap (emitRule2 a) = (l.map Prod.fst).filterMap (fun d =>
        match strptimeYmd d with
        | some v => if dateLt v a then some (artMsg d a) else none
        | none => none) := by
  intro l
  induction l with
  | nil => rfl
  | cons p ps ih =>
    rw [List.flatMap_cons, List.map_cons, List.filterMap_cons, ih]
    cases hm : strptimeYmd p.1 with
    | none => simp [emitRule2, hm]
    | some v =>
      by_cases hlt : dateLt v a = true
      · simp [emitRule2, hm, hlt]
      · simp [emitRule2, hm, hlt]

theorem mmdMsg_eq_iff {d₁ d₂ : String} : mmdMsg d₁ = mmdMsg d₂ ↔ d₁ = d₂ :=
  ⟨mmdMsg_inj, fun h => by rw [h]⟩

theorem truthy_false_iff (x : Option String) :
    truthy x = false ↔ (x = none ∨ x = some "") := by
  cases x with
  | none => simp [truthy]
  | some s => simp [truthy]

theorem mem_emitRule5 (d : String) (p : String × Regimen) :
    mmdMsg d ∈ emitRule5 p ↔ p.1 = d ∧ mmdTriggerSpec p.2 := by
  unfold emitRule5 mmdTriggerSpec durationInt durationSpec
  cases hds : p.2.duration with
  | none => simp
  | some ds =>
    by_cases he : ds = ""
    · subst he
      simp [pyIntStr, trimWs, pyDigits]
    · simp only [if_neg he]
      cases hn : pyIntStr ds with
      | none => simp
      | some n =>
        by_cases h30 : (30 : Int) < n
        · by_cases hm : truthy p.2.mmd = true
          · have : ¬ (p.2.mmd = none ∨ p.2.mmd = some "") := by
              rw [← truthy_false_iff]
              simp [hm]
            simp [h30, hm, this]
          · have hmm : p.2.mmd = none ∨ p.2.mmd = some "" := by
              rw [← truthy_false_iff]
              simpa using hm
            simp [h30, hm, hmm, mmdMsg_eq_iff, eq_comm]
        · simp [h30]

/-! ### IPT set membership -/

theorem mem_setAdd (d x : String) (l : List String) :
    d ∈ setAdd x l ↔ d = x ∨ d ∈ l := by
  unfold setAdd
  by_cases h : l.contains x
  · simp only [if_pos h]
    constructor
    · exact Or.inr
    · rintro (rfl | hd)
      · simpa using h
      · exact hd
  · simp only [if_neg h, List.mem_append, List.mem_singleton]
    tauto

theorem mem_iptFold (P : Xml → Bool) (k : Xml → String) :
    ∀ (nodes : List Xml) (acc : List String) (d : String),
      d ∈ nodes.foldl (fun acc n => if P n then setAdd (k n) acc else acc) acc ↔
        d ∈ acc ∨ ∃ n ∈ nodes, P n ∧ k n = d := by
  intro nodes
  induction nodes with
  | nil => intro acc d; simp
  | cons n ns ih =>
    intro acc d
    rw [List.foldl_cons, ih]
    by_cases hp : P n
    · rw [if_pos hp, mem_setAdd]
      simp only [List.mem_cons, hp]
      constructor
      · rintro ((rfl | hd) | ⟨m, hm, hPm, hkm⟩)
        · exact Or.inr ⟨n, Or.inl rfl, hp, rfl⟩
        · exact Or.inl hd
        · exact Or.inr ⟨m, Or.inr hm, hPm, hkm⟩
      · rintro (hd | ⟨m, (rfl | hm), hPm, hkm⟩)
        · exact Or.inl (Or.inr hd)
        · exact Or.inl (Or.inl hkm.symm)
        · exact Or.inr ⟨m, hm, hPm, hkm⟩
    · rw [if_neg hp]
      simp only [List.mem_cons]
      constructor
      · rintro (hd | ⟨m, hm, hPm, hkm⟩)
        · exact Or.inl hd
        · exact Or.inr ⟨m, Or.inr hm, hPm, hkm⟩
      · rintro (hd | ⟨m, (rfl | hm), hPm, hkm⟩)
        · exact Or.inl hd
        · exact absurd hPm hp
        · exact Or.inr ⟨m, hm, hPm, hkm⟩

theorem mem_iptCodes (root : Xml) (d : String) :
    d ∈ iptCodesOf root ↔
      ∃ n ∈ regimenNodes root,
        containsINH ((findtext2 "PrescribedRegimen" "Code" n).getD "") = true ∧
        visitKey n = d := by
  unfold iptCodesOf
  rw [mem_iptFold]
  simp

/-! ### Claim theorems -/

/-- C2.  Validator totality: on every normalized record the exception-explicit
validator runs to completion with `Except.ok` of the pure issue list — every
internal parse failure is caught (converted to a skip or a warning) before the
next rule runs, and an ordered list (possibly empty) is always returned. -/
theorem claim_C2_validator_total (s : Services) :
    validate_ndrE s = Except.ok (validate_ndr s) :=
  validate_ndrE_eq s

/-- C3.  ART-start ordering rule: the rule's output is exactly the spec-side
list — empty when no ART-start date was parsed, and otherwise one issue naming
the encounter date and the ART-start date per encounter key that parses
strictly as `YYYY-MM-DD` and is strictly before the ART start, with
unparseable keys (including the `"Unknown"` sentinel, which never parses) and
keys on or after the ART start contributing nothing. -/
theorem claim_C3_art_ordering (s : Services) : rule2 s = artRuleSpec s := by
  unfold artRuleSpec
  cases ha : s.art_start with
  | none => unfold rule2; rw [ha]
  | some a => rw [rule2_eq s a ha, flatMap_emitRule2]

/-- C4.  TB/IPT cross-check: the rule's output equals the spec-side list (one
issue per TB-positive date when the extracted IPT-date set is empty,
regardless of which dates the IPT set holds — document-wide suppression), and
it is non-empty exactly when a TB-positive date exists and the IPT set is
empty. -/
theorem claim_C4_tb_ipt (s : Services) :
    rule3 s = tbRuleSpec s ∧ (rule3 s ≠ [] ↔ tbDates s ≠ [] ∧ s.ipt_codes = []) := by
  have he : rule3 s = tbRuleSpec s := by
    rw [rule3_eq]
    unfold tbRuleSpec
    by_cases h1 : tbDates s = []
    · by_cases h2 : s.ipt_codes = [] <;> simp [h1, h2]
    · by_cases h2 : s.ipt_codes = [] <;> simp [h1, h2]
  refine ⟨he, ?_⟩
  rw [he]
  unfold tbRuleSpec
  by_cases h2 : s.ipt_codes = []
  · simp [h2]
  · simp [h2]

/-- C5.  MMD rule: an MMD issue naming date `d` is emitted iff some regimen
entry at `d` has a duration that parses as an integer strictly greater than 30
(absent duration counting as zero) and an absent-or-empty MMD flag;
unparseable durations and durations ≤ 30 never contribute. -/
theorem claim_C5_mmd (s : Services) (d : String) :
    mmdMsg d ∈ rule5 s ↔ ∃ r : Regimen, (d, r) ∈ s.regimens ∧ mmdTriggerSpec r := by
  rw [rule5_eq, List.mem_flatMap]
  constructor
  · rintro ⟨p, hp, hmem⟩
    rw [mem_emitRule5] at hmem
    obtain ⟨hpd, ht⟩ := hmem
    subst hpd
    refine ⟨p.2, ?_, ht⟩
    rw [Prod.mk.eta]
    exact hp
  · rintro ⟨r, hr, ht⟩
    exact ⟨(d, r), hr, (mem_emitRule5 d (d, r)).2 ⟨rfl, ht⟩⟩

/-- C1.  Age-consistency rule: when date of birth and report date both parse
strictly as `YYYY-MM-DD` and the reported age parses as an integer, the rule
emits exactly one mismatch issue citing the reported and computed ages iff
the absolute difference between them exceeds 1, the computed age being
report year minus birth year, minus one more if the (month, day) of the
report date precedes that of the birth date; when any step fails, it emits
exactly the single generic format warning. -/
theorem claim_C1_age_rule (p : PatientInfo) :
    (∀ (dobD rptD : PyDate) (a : Int),
        p.dob.bind strptimeYmd = some dobD →
        p.report_date.bind strptimeYmd = some rptD →
        p.age.bind pyIntStr = some a →
        rule7 p = if (a - calcAgeSpec dobD rptD).natAbs > 1
                  then [ageMsg p.age (calcAgeSpec dobD rptD)] else [])
    ∧ ((p.dob.bind strptimeYmd = none ∨ p.report_date.bind strptimeYmd = none ∨
          p.age.bind pyIntStr = none) →
        rule7 p = [ageWarnMsg]) := by
  constructor
  · intro dobD rptD a h1 h2 h3
    unfold rule7
    rw [h1, h2, h3, calcAgeSpec_eq]
  · intro h
    unfold rule7
    cases h1 : p.dob.bind strptimeYmd with
    | none => rfl
    | some dobD =>
      cases h2 : p.report_date.bind strptimeYmd with
      | none => rfl
      | some rptD =>
        cases h3 : p.age.bind pyIntStr with
        | none => rfl
        | some a =>
          rw [h1, h2, h3] at h
          rcases h with h | h | h <;> exact absurd h (by simp)

/-- Witness for C1 at a concrete patient: DOB 2000-06-15, report date
2024-06-10 (birthday not yet reached, computed age 23), reported age 25 —
the mismatch issue is emitted. -/
theorem claim_C1_age_rule_witness :
    rule7 patW = [ageMsg (some "25") 23] := by
  have h := (claim_C1_age_rule patW).1 ⟨2000, 6, 15⟩ ⟨2024, 6, 10⟩ 25
    (by decide) (by decide) (by decide)
  rw [h]
  decide

/-- C6.  Last-write-wins extraction: every extracted collection has pairwise
distinct date keys, the entry stored under any key is the one built from the
last source node (in document traversal order) whose visit date normalizes to
that key, and a missing or empty visit date normalizes to the `"Unknown"`
sentinel. -/
theorem claim_C6_last_write_wins (root : Xml) :
    (((extract_services_with_dates root).encounters.map Prod.fst).Nodup ∧
     ((extract_services_with_dates root).regimens.map Prod.fst).Nodup ∧
     ((extract_services_with_dates root).labs.map Prod.fst).Nodup)
    ∧ (∀ d, lookup (extract_services_with_dates root).encounters d =
          lastWins visitKey buildEncounter (encounterNodes root) d)
    ∧ (∀ d, lookup (extract_services_with_dates root).regimens d =
          lastWins visitKey buildRegimen (regimenNodes root) d)
    ∧ (∀ d, lookup (extract_services_with_dates root).labs d =
          lastWins visitKey buildLab (labNodes root) d)
    ∧ (∀ n : Xml, (findtext1 "VisitDate" n = none ∨ findtext1 "VisitDate" n = some "") →
        visitKey n = "Unknown") := by
  refine ⟨⟨nodup_buildMap _ _ _, nodup_buildMap _ _ _, nodup_buildMap _ _ _⟩,
    fun d => lookup_buildMap _ _ _ d, fun d => lookup_buildMap _ _ _ d,
    fun d => lookup_buildMap _ _ _ d, ?_⟩
  intro n h
  unfold visitKey
  rcases h with h | h
  · rw [h]
  · rw [h]; rfl

/-- Witness for C6 at a concrete document: the surviving regimen under the
shared date is the one from the later node, and a node without a `VisitDate`
child gets the sentinel key. -/
theorem claim_C6_last_write_wins_witness :
    lookup (extract_services_with_dates docIpt).regimens "2024-05-01" =
      lastWins visitKey buildRegimen (regimenNodes docIpt) "2024-05-01"
    ∧ visitKey (Xml.elem "Regimen" none (xl [])) = "Unknown" :=
  ⟨(claim_C6_last_write_wins docIpt).2.2.1 "2024-05-01",
   (claim_C6_last_write_wins docIpt).2.2.2.2 (Xml.elem "Regimen" none (xl [])) (Or.inl rfl)⟩

/-- C7.  Extractor error contract: extraction fails (with the parse error)
exactly on documents that are not well-formed; on every well-formed document
it succeeds with the extracted record — missing optional nodes yield absent
values, never failures — and an ART-start field that is missing, empty, or
not strict `YYYY-MM-DD` yields an absent ART-start date without any error. -/
theorem claim_C7_extractor_contract :
    (∀ root : Xml, extractDoc (Document.wellFormed root) =
        Except.ok (extract_services_with_dates root))
    ∧ extractDoc Document.malformed = Except.error PyErr.parseError
    ∧ (∀ d : Document, (∃ e, extractDoc d = Except.error e) ↔ d = Document.malformed)
    ∧ (∀ root : Xml,
        (∀ s, artText root = some s → s = "" ∨ strptimeYmd s = none) →
        (extract_services_with_dates root).art_start = none) := by
  have hwf : ∀ root : Xml, extractDoc (Document.wellFormed root) =
      Except.ok (extract_services_with_dates root) := by
    intro root
    unfold extractDoc ET_parse
    simp [Bind.bind, Except.bind, extractE_eq]
  refine ⟨hwf, rfl, ?_, ?_⟩
  · intro d
    cases d with
    | wellFormed r => simp [hwf r]
    | malformed => simp [extractDoc, ET_parse, Bind.bind, Except.bind]
  · intro root h
    show artStartOf root = none
    unfold artStartOf
    cases ha : artText root with
    | none => rfl
    | some s =>
      rcases h s ha with he | hp
      · simp [he]
      · by_cases he : s = ""
        · simp [he]
        · simp [he, hp]

/-- Witness for C7 at a concrete document whose ART-start text is present but
malformed: extraction succeeds and the ART-start date is absent. -/
theorem claim_C7_extractor_contract_witness :
    extractDoc (Document.wellFormed docBadArt) =
      Except.ok (extract_services_with_dates docBadArt)
    ∧ (extract_services_with_dates docBadArt).art_start = none :=
  ⟨claim_C7_extractor_contract.1 docBadArt,
   claim_C7_extractor_contract.2.2.2 docBadArt (fun s hs => by
     have : s = "01/02/2024" := by
       have := hs.symm.trans (show artText docBadArt = some "01/02/2024" from rfl)
       exact (Option.some.injEq _ _ ▸ this : _)
     exact Or.inr (by rw [this]; decide))⟩

/-- C8.  Determinism of the pipeline: two sequential invocations on the same
input produce identical results, and the pipeline output depends only on the
parsed document (no shared mutable state across invocations). -/
theorem claim_C8_determinism (d : Document) :
    (runTwice d).1 = (runTwice d).2 ∧
    ∀ d' : Document, ET_parse d = ET_parse d' → pipeline d = pipeline d' := by
  refine ⟨rfl, ?_⟩
  intro d' h
  unfold pipeline
  rw [h]

/-- Witness for C8 at a concrete document. -/
theorem claim_C8_determinism_witness :
    (runTwice (Document.wellFormed docIpt)).1 = (runTwice (Document.wellFormed docIpt)).2
    ∧ pipeline (Document.wellFormed docIpt) = pipeline (Document.wellFormed docIpt) :=
  ⟨(claim_C8_determinism (Document.wellFormed docIpt)).1,
   (claim_C8_determinism (Document.wellFormed docIpt)).2 (Document.wellFormed docIpt) rfl⟩

/-- C9.  IPT set survives overwriting: in the concrete document with an
INH-coded regimen followed by a non-INH regimen on the same date, that date
is in the extracted IPT set although the surviving regimen entry has the
non-INH code; in general, IPT membership is decided per source regimen node
in traversal order, so a date is never removed when a later same-date node
overwrites the entry. -/
theorem claim_C9_ipt_survives :
    ((extract_services_with_dates docIpt).ipt_codes = ["2024-05-01"]
     ∧ lookup (extract_services_with_dates docIpt).regimens "2024-05-01" =
         some { code := "TDF-3TC-DTG", rtype := none, mmd := none, dsd := none,
                duration := none }
     ∧ containsINH "TDF-3TC-DTG" = false ∧ containsINH "INH 300mg" = true)
    ∧ (∀ (root : Xml) (d : String),
        d ∈ iptCodesOf root ↔ ∃ n ∈ regimenNodes root,
          containsINH ((findtext2 "PrescribedRegimen" "Code" n).getD "") = true ∧
          visitKey n = d) :=
  ⟨by decide, fun root d => mem_iptCodes root d⟩

/-- C10.  Present-but-empty fields count as missing: an encounter whose ARV
code is the empty string yields the missing-ARV issue for its date, and a lab
report whose test identifier or collection date is the empty string yields
the lab-completeness issue for its date, in the full validator output. -/
theorem claim_C10_empty_fields (s : Services) :
    (∀ d e, (d, e) ∈ s.encounters → e.arv = some "" →
        ("❌ Missing ARV regimen in encounter on " ++ d ++ ".") ∈ validate_ndr s)
    ∧ (∀ d l, (d, l) ∈ s.labs → (l.test_id = some "" ∨ l.collected = some "") →
        labMsg d ∈ validate_ndr s) := by
  constructor
  · intro d e hm ha
    have h1 : ("❌ Missing ARV regimen in encounter on " ++ d ++ ".") ∈ rule1 s := by
      rw [rule1_eq, List.mem_flatMap]
      exact ⟨(d, e), hm, by simp [emitRule1, ha, truthy]⟩
    unfold validate_ndr
    simp [h1]
  · intro d l hm hl
    have h4 : labMsg d ∈ rule4 s := by
      rw [rule4_eq, List.mem_flatMap]
      refine ⟨(d, l), hm, ?_⟩
      rcases hl with h | h <;> simp [emitRule4, h, truthy]
    unfold validate_ndr
    simp [h4]

/-- Witness for C10 on the record extracted from a concrete document with an
empty ARV code and an empty lab test identifier. -/
theorem claim_C10_empty_fields_witness :
    ("❌ Missing ARV regimen in encounter on " ++ "2024-01-10" ++ ".") ∈
      validate_ndr (extract_services_with_dates docEmptyFields)
    ∧ labMsg "2024-01-11" ∈ validate_ndr (extract_services_with_dates docEmptyFields) :=
  ⟨(claim_C10_empty_fields _).1 "2024-01-10" ⟨some "", none⟩ (by decide) rfl,
   (claim_C10_empty_fields _).2 "2024-01-11" ⟨some "", some "2024-01-11"⟩ (by decide)
     (Or.inl rfl)⟩

end NDR
